import Mathlib

/-!
Verification of the workspace metadata counting tool (`main.go`).

The repository contains two variants of the program in one source file:
* the fixed-struct variant ("V1"): metadata decoded into a fixed struct
  `Metadata{Counts{Plugins, Targets, Services, Routes, Upstreams}}`,
  aggregated by a reflective `updateCounts` that skips zero fields, and a
  totals table with the synthetic `Workspaces` row appended last with
  `len(workspaces)`;
* the map-based variant ("V2"): metadata decoded into
  `Metadata{Counts map[string]int}`, aggregated by the map-merge
  `updateCounts`, and a totals table sorted ascending by count with the
  synthetic `Workspaces` row appended first with `len(workspaceMetadataList)`.

Go maps are modelled as association lists with unique keys (`GoMap`);
`lookup` is the map read, `mapSet` the map write.  Map iteration order is
unspecified in Go, so theorems about aggregate maps are stated in terms of
`lookup` (extensional equality), and entry insertion order is used where the
program only feeds the map into a by-count sort.
-/

namespace KongCounts

/-- Model of a Go `map[string]α`: an association list with (invariantly)
unique keys, in insertion order. -/
abbrev GoMap (α : Type) := List (String × α)

/-- Go map read: `v, ok := m[key]`, as `some v` / `none`. -/
def lookup {α : Type} : GoMap α → String → Option α
  | [], _ => none
  | (k, v) :: rest, key => if k = key then some v else lookup rest key

/-- Replace the value stored under `key` (at every entry carrying `key`;
with unique keys there is at most one). -/
def replaceEntry {α : Type} : GoMap α → String → α → GoMap α
  | [], _, _ => []
  | (k0, v0) :: rest, key, v =>
    if k0 = key then (key, v) :: replaceEntry rest key v
    else (k0, v0) :: replaceEntry rest key v

/-- Go map write `m[key] = v`: replace the value when the key is present,
otherwise add the entry. -/
def mapSet {α : Type} (m : GoMap α) (key : String) (v : α) : GoMap α :=
  if (lookup m key).isSome then replaceEntry m key v
  else m ++ [(key, v)]

/-- `Workspace` (`main.go`): one element of the workspace list response. -/
structure Workspace where
  name : String
  id : String
deriving DecidableEq

/-- One iteration of the loop body of the map-based `updateCounts`
(`main.go` lines 383-389): for entry `(key, value)` of `metaCounts`,
`counts[key] = counts[key] + value` when present, else `counts[key] = value`. -/
def mergeStep (counts : GoMap Int) (p : String × Int) : GoMap Int :=
  match lookup counts p.1 with
  | some count => mapSet counts p.1 (count + p.2)
  | none => mapSet counts p.1 p.2

/-- `updateCounts(metaCounts, counts)` of the map-based variant
(`main.go` lines 382-390): fold the loop body over the entries of
`metaCounts`, mutating `counts`. -/
def updateCounts (metaCounts : GoMap Int) (counts : GoMap Int) : GoMap Int :=
  metaCounts.foldl mergeStep counts

/-- The fixed-shape `Metadata.Counts` struct of the fixed-struct variant
(`main.go` lines 31-40). -/
structure Counts where
  plugins : Int
  targets : Int
  services : Int
  routes : Int
  upstreams : Int
deriving DecidableEq

/-- The (field name, field value) pairs that the reflective `updateCounts`
(`main.go` lines 152-169) visits when called on a `Metadata` value: it
recurses through the single struct field `Counts` and reaches its five `int`
fields, keyed by their Go field names. -/
def countsFields (c : Counts) : List (String × Int) :=
  [("Plugins", c.plugins), ("Targets", c.targets), ("Services", c.services),
   ("Routes", c.routes), ("Upstreams", c.upstreams)]

/-- One step of the reflective `updateCounts` at an `int` field
(`main.go` lines 161-164): `counts[field.Name] += value`, skipped when the
value is `0`. -/
def reflectStep (counts : GoMap Int) (p : String × Int) : GoMap Int :=
  if p.2 ≠ 0 then mergeStep counts p else counts

/-- The reflective `updateCounts(meta, counts)` of the fixed-struct variant
(`main.go` lines 152-169), specialised to a `Metadata` argument: it adds
every nonzero `int` field of the nested `Counts` struct under its field
name. -/
def updateCountsReflect (c : Counts) (counts : GoMap Int) : GoMap Int :=
  (countsFields c).foldl reflectStep counts

/-- `strings.Split(s, sep)` on the character level, for a one-character
separator: split at every occurrence of `c`; the result always has one more
piece than there are occurrences of `c`. -/
def splitChar (c : Char) : List Char → List (List Char)
  | [] => [[]]
  | ch :: rest =>
    match splitChar c rest with
    | [] => if ch = c then [[], []] else [[ch]]
    | piece :: more =>
      if ch = c then [] :: piece :: more else (ch :: piece) :: more

/-- `strings.Split(s, string(c))` for a one-character separator. -/
def goSplit (s : String) (c : Char) : List String :=
  (splitChar c s.data).map (fun l => String.mk l)

/-- `strings.TrimSpace` on the character level: drop leading and trailing
whitespace. -/
def trimSpaceList (l : List Char) : List Char :=
  ((l.dropWhile Char.isWhitespace).reverse.dropWhile Char.isWhitespace).reverse

/-- `strings.TrimSpace(s)`. -/
def goTrim (s : String) : String :=
  String.mk (trimSpaceList s.data)

/-- Admin base URL resolution (`main.go` lines 48-54 and 272-278): an empty
`--kong-addr` flag falls back to `KONG_ADMIN_ADDR`, and an empty environment
value falls back to the literal default. -/
def resolveKongAddr (flagValue : String) (envValue : String) : String :=
  if flagValue = "" then
    if envValue = "" then "http://localhost:8001" else envValue
  else flagValue

/-- `getHeaders(headersFlag)` of the fixed-struct variant (`main.go` lines
209-228), with the `X_ADMIN_TOKEN` environment lookup passed explicitly:
a non-empty flag that splits on `:` into exactly two parts contributes the
trimmed key/value pair; a non-empty token then sets `x-admin-token`,
overwriting any equal key. -/
def getHeaders (headersFlag : String) (xAdminToken : String) : GoMap String :=
  let headers : GoMap String :=
    if headersFlag ≠ "" then
      let headerParts := goSplit headersFlag ':'
      if headerParts.length = 2 then
        mapSet [] (goTrim (headerParts.getD 0 "")) (goTrim (headerParts.getD 1 ""))
      else []
    else []
  if xAdminToken ≠ "" then mapSet headers "x-admin-token" xAdminToken else headers

/-- The headers attached to a metadata request by the map-based variant
(`main.go` lines 354-360): the same split/trim logic, inlined in
`getMetadata`, applied to a fresh request header map. -/
def getMetadataHeaders (headers : String) : GoMap String :=
  if headers ≠ "" then
    let headerArr := goSplit headers ':'
    if headerArr.length = 2 then
      mapSet [] (goTrim (headerArr.getD 0 "")) (goTrim (headerArr.getD 1 ""))
    else []
  else []

/-- The fetch loop of the map-based `main` (`main.go` lines 294-311):
on a fetch/decode error the workspace is skipped (`continue`); on success
its counts go through `updateCounts` and the workspace is appended to
`workspaceMetadataList`.  Returns (`workspaceMetadataList`, `counts`). -/
def processWorkspaces (fetch : String → Except String (GoMap Int))
    (workspaces : List Workspace) : List (String × GoMap Int) × GoMap Int :=
  workspaces.foldl
    (fun acc ws =>
      match fetch ws.name with
      | Except.error _ => acc
      | Except.ok meta => (acc.1 ++ [(ws.name, meta)], updateCounts meta acc.2))
    ([], [])

/-- The fetch loop of the fixed-struct `main` (`main.go` lines 70-90), with
the reflective aggregation. -/
def processWorkspacesV1 (fetch : String → Except String Counts)
    (workspaces : List Workspace) : List (String × Counts) × GoMap Int :=
  workspaces.foldl
    (fun acc ws =>
      match fetch ws.name with
      | Except.error _ => acc
      | Except.ok meta => (acc.1 ++ [(ws.name, meta)], updateCountsReflect meta acc.2))
    ([], [])

/-- Insert a row into a by-count sorted list, keeping it sorted. -/
def insertByCount (p : String × Int) : List (String × Int) → List (String × Int)
  | [] => [p]
  | q :: rest => if p.2 < q.2 then p :: q :: rest else q :: insertByCount p rest

/-- The `sort.Slice(metaFields, less-by-count)` of the map-based
`printCountsTable` (`main.go` lines 424-426), modelled as insertion sort:
Go's sort is unstable and leaves the relative order of equal counts
unspecified, and no property proved here depends on that order. -/
def sortByCount : List (String × Int) → List (String × Int)
  | [] => []
  | p :: rest => insertByCount p (sortByCount rest)

/-- The rows of the totals table of the map-based `printCountsTable`
(`main.go` lines 409-445): the synthetic `Workspaces` row is appended
first (line 433), then the meta-field rows sorted ascending by count.
The map's entries are taken in insertion order before sorting; Go map
iteration order is unspecified and only the by-count order survives. -/
def totalsRows (counts : GoMap Int) (workspaceCount : Nat) : List (String × Int) :=
  ("Workspaces", (workspaceCount : Int)) :: sortByCount counts

/-- The rows of the totals table of the fixed-struct `printCountsTable`
(`main.go` lines 191-207): the meta-field rows in map order, then the
synthetic `Workspaces` row appended last (line 204). -/
def totalsRowsV1 (counts : GoMap Int) (workspaceCount : Nat) : List (String × Int) :=
  counts ++ [("Workspaces", (workspaceCount : Int))]

/-- The totals table printed by the fixed-struct `main` (`main.go` line 98):
`printCountsTable(counts, len(workspaces))` — the `Workspaces` row carries
the length of the *listed* workspace slice, failed fetches included. -/
def mainV1Totals (fetch : String → Except String Counts)
    (workspaces : List Workspace) : List (String × Int) :=
  totalsRowsV1 (processWorkspacesV1 fetch workspaces).2 workspaces.length

/-- One observable output item of the map-based `main`. -/
inductive OutputItem where
  | errorLine (msg : String)
  | wsErrorLine (wsName : String) (msg : String)
  | workspaceTable (rows : List (String × GoMap Int))
  | totalsTable (rows : List (String × Int))
deriving DecidableEq

/-- The output of the map-based `main` (`main.go` lines 265-324) as a list
of observable items, with the workspace-list result and the per-workspace
metadata fetch supplied as oracles.  A failed workspace list prints the
error and returns (lines 283-286); otherwise the loop prints one error line
per failed workspace, and the two tables are printed according to the
`--meta` flag (lines 313-323), the totals table with
`len(workspaceMetadataList)` as workspace count (line 322). -/
def runMain (workspacesResult : Except String (List Workspace))
    (fetch : String → Except String (GoMap Int)) (metaFlag : String) :
    List OutputItem :=
  match workspacesResult with
  | Except.error e => [OutputItem.errorLine ("Error getting workspaces: " ++ e)]
  | Except.ok workspaces =>
    let result := processWorkspaces fetch workspaces
    let errLines := workspaces.filterMap (fun ws =>
      match fetch ws.name with
      | Except.error e => some (OutputItem.wsErrorLine ws.name e)
      | Except.ok _ => none)
    errLines
      ++ (if metaFlag = "workspace" ∨ metaFlag = "all" then
            [OutputItem.workspaceTable result.1] else [])
      ++ (if metaFlag = "counts" ∨ metaFlag = "all" then
            [OutputItem.totalsTable (totalsRows result.2 result.1.length)] else [])

/-- The per-key effect of one merge, as a binary operation on optional
counts: `combine a b` is the value at a key after merging a source entry `b`
into an accumulator holding `a`. -/
def combine (a b : Option Int) : Option Int :=
  match b with
  | some v => some (a.getD 0 + v)
  | none => a

/-- Aggregation across workspaces in the map-based variant: the main loop
folds each fetched counts map into the initially empty `counts` map. -/
def aggregate (metas : List (GoMap Int)) : GoMap Int :=
  metas.foldl (fun c m => updateCounts m c) []

/-- Aggregation across workspaces in the fixed-struct variant: the main loop
folds each fetched metadata struct into the initially empty `counts` map via
the reflective `updateCounts`. -/
def aggregateReflect (metas : List Counts) : GoMap Int :=
  metas.foldl (fun c m => updateCountsReflect m c) []

/-- The workspace list `[{name:"a"},{name:"b"}]` of the spec's concrete
scenarios. -/
def wsAB : List Workspace := [⟨"a", "id-a"⟩, ⟨"b", "id-b"⟩]

/-- Metadata oracle of the spec's success scenario: `a` has
`{"counts":{"plugins":2}}`, `b` has `{"counts":{"plugins":3,"routes":1}}`. -/
def fetchAB : String → Except String (GoMap Int) := fun n =>
  if n = "a" then Except.ok [("plugins", 2)]
  else if n = "b" then Except.ok [("plugins", 3), ("routes", 1)]
  else Except.error "no such workspace"

/-- Metadata oracle of the spec's failure scenario: `a` succeeds with
`{"plugins":2}`, the fetch for `b` fails. -/
def fetchBFails : String → Except String (GoMap Int) := fun n =>
  if n = "a" then Except.ok [("plugins", 2)]
  else Except.error "connection refused"

/-- The failure scenario against the fixed-struct variant: `a` succeeds with
two plugins, the fetch for `b` fails. -/
def fetchV1BFails : String → Except String Counts := fun n =>
  if n = "a" then Except.ok ⟨2, 0, 0, 0, 0⟩
  else Except.error "connection refused"

/-- Three workspaces for the totals-table order scenario. -/
def wsABC : List Workspace := [⟨"a", "id-a"⟩, ⟨"b", "id-b"⟩, ⟨"c", "id-c"⟩]

/-- Metadata oracle where `a` has one plugin and the other workspaces have
empty counts. -/
def fetchThree : String → Except String (GoMap Int) := fun n =>
  if n = "a" then Except.ok [("plugins", 1)] else Except.ok []

/-! ### Map lemmas -/

theorem lookup_replaceEntry_self {α : Type} (m : GoMap α) (k : String) (v : α) :
    lookup (replaceEntry m k v) k
      = if (lookup m k).isSome then some v else none := by
  induction m with
  | nil => simp [replaceEntry, lookup]
  | cons p rest ih =>
    obtain ⟨k0, v0⟩ := p
    by_cases hk : k0 = k
    · subst hk; simp [replaceEntry, lookup]
    · simp [replaceEntry, lookup, hk, ih]

theorem lookup_replaceEntry_ne {α : Type} (m : GoMap α) (k : String) (v : α)
    (key : String) (hne : key ≠ k) :
    lookup (replaceEntry m k v) key = lookup m key := by
  induction m with
  | nil => simp [replaceEntry]
  | cons p rest ih =>
    obtain ⟨k0, v0⟩ := p
    by_cases hk : k0 = k
    · subst hk
      have h1 : ¬(k0 = key) := fun h => hne h.symm
      simp [replaceEntry, lookup, h1, ih]
    · by_cases h0 : k0 = key
      · subst h0; simp [replaceEntry, lookup, hk]
      · simp [replaceEntry, lookup, hk, h0, ih]

theorem lookup_append_right {α : Type} (a b : GoMap α) (key : String)
    (h : lookup a key = none) : lookup (a ++ b) key = lookup b key := by
  induction a with
  | nil => simp
  | cons p rest ih =>
    obtain ⟨k0, v0⟩ := p
    by_cases h0 : k0 = key
    · simp [lookup, h0] at h
    · simp only [lookup, h0, if_false, List.cons_append] at h ⊢
      exact ih h

theorem lookup_append_left {α : Type} (a b : GoMap α) (key : String) (v : α)
    (h : lookup a key = some v) : lookup (a ++ b) key = some v := by
  induction a with
  | nil => simp [lookup] at h
  | cons p rest ih =>
    obtain ⟨k0, v0⟩ := p
    by_cases h0 : k0 = key
    · simp only [lookup, h0, if_true, List.cons_append] at h ⊢
      exact h
    · simp only [lookup, h0, if_false, List.cons_append] at h ⊢
      exact ih h

theorem lookup_mapSet_self {α : Type} (m : GoMap α) (k : String) (v : α) :
    lookup (mapSet m k v) k = some v := by
  unfold mapSet
  cases hc : lookup m k with
  | some w =>
    rw [if_pos (by simp [hc])]
    rw [lookup_replaceEntry_self, hc]
    rfl
  | none =>
    rw [if_neg (by simp [hc])]
    rw [lookup_append_right _ _ _ hc]
    simp [lookup]

theorem lookup_mapSet_ne {α : Type} (m : GoMap α) (k : String) (v : α)
    (key : String) (hne : key ≠ k) : lookup (mapSet m k v) key = lookup m key := by
  unfold mapSet
  cases hck : lookup m k with
  | some w =>
    rw [if_pos (by simp [hck])]
    exact lookup_replaceEntry_ne m k v key hne
  | none =>
    rw [if_neg (by simp [hck])]
    cases hc : lookup m key with
    | some w => exact lookup_append_left _ _ _ _ hc
    | none =>
      rw [lookup_append_right _ _ _ hc]
      have hne2 : ¬(k = key) := fun h => hne h.symm
      simp [lookup, hne2]

theorem lookup_mergeStep (c : GoMap Int) (k : String) (v : Int) (key : String) :
    lookup (mergeStep c (k, v)) key
      = if key = k then some ((lookup c k).getD 0 + v) else lookup c key := by
  unfold mergeStep
  by_cases hk : key = k
  · subst hk
    cases hc : lookup c key <;> simp [hc, lookup_mapSet_self]
  · cases hc : lookup c k <;> simp [hc, lookup_mapSet_ne _ _ _ _ hk, hk]

theorem lookup_eq_none_of_keys {α : Type} (m : GoMap α) (k : String)
    (h : ∀ p ∈ m, p.1 ≠ k) : lookup m k = none := by
  induction m with
  | nil => rfl
  | cons p rest ih =>
    have h0 : p.1 ≠ k := h p (List.mem_cons_self p rest)
    obtain ⟨k0, v0⟩ := p
    simp only [lookup, h0, if_false]
    exact ih (fun q hq => h q (List.mem_cons_of_mem _ hq))

/-- The per-key semantics of the map-based `updateCounts`: provided the
source map has unique keys (a Go map invariant), the value at each key after
the merge is `combine` of the values before. -/
theorem lookup_updateCounts (metaCounts : GoMap Int) (c : GoMap Int) (key : String)
    (h : (metaCounts.map Prod.fst).Nodup) :
    lookup (updateCounts metaCounts c) key
      = combine (lookup c key) (lookup metaCounts key) := by
  induction metaCounts generalizing c with
  | nil => simp [updateCounts, combine, lookup]
  | cons p rest ih =>
    obtain ⟨k0, v0⟩ := p
    simp only [List.map_cons, List.nodup_cons] at h
    obtain ⟨hk0, hrest⟩ := h
    have hstep : updateCounts ((k0, v0) :: rest) c
        = updateCounts rest (mergeStep c (k0, v0)) := rfl
    rw [hstep, ih _ hrest]
    by_cases hk : key = k0
    · subst hk
      have hnone : lookup rest key = none := by
        apply lookup_eq_none_of_keys
        intro q hq hqk
        exact hk0 (hqk ▸ List.mem_map_of_mem Prod.fst hq)
      rw [hnone]
      simp [combine, lookup_mergeStep, lookup]
    · rw [lookup_mergeStep]
      simp only [hk, if_false]
      have hne2 : ¬(k0 = key) := fun h => hk h.symm
      have hlk : lookup ((k0, v0) :: rest) key = lookup rest key := by
        simp [lookup, hne2]
      rw [hlk]

theorem lookup_foldl_updateCounts (metas : List (GoMap Int)) (init : GoMap Int)
    (key : String) (h : ∀ m ∈ metas, (m.map Prod.fst).Nodup) :
    lookup (metas.foldl (fun c m => updateCounts m c) init) key
      = (metas.map (fun m => lookup m key)).foldl combine (lookup init key) := by
  induction metas generalizing init with
  | nil => rfl
  | cons m rest ih =>
    simp only [List.foldl_cons, List.map_cons]
    rw [ih _ (fun q hq => h q (List.mem_cons_of_mem _ hq)),
        lookup_updateCounts m init key (h m (List.mem_cons_self m rest))]

theorem combine_right_comm (a b c : Option Int) :
    combine (combine a b) c = combine (combine a c) b := by
  cases b with
  | none => cases c <;> rfl
  | some v =>
    cases c with
    | none => rfl
    | some w =>
      simp only [combine, Option.getD_some, Option.some.injEq]
      ring

theorem mapSet_nil {α : Type} (k : String) (v : α) :
    mapSet ([] : GoMap α) k v = [(k, v)] := rfl

/-! ### Sorting lemmas -/

theorem mem_insertByCount (p x : String × Int) (l : List (String × Int)) :
    x ∈ insertByCount p l ↔ x = p ∨ x ∈ l := by
  induction l with
  | nil => simp [insertByCount]
  | cons q rest ih =>
    by_cases h : p.2 < q.2
    · simp only [insertByCount, if_pos h, List.mem_cons]
    · simp only [insertByCount, if_neg h, List.mem_cons, ih]
      tauto

theorem pairwise_insertByCount (p : String × Int) (l : List (String × Int))
    (h : List.Pairwise (fun a b => a.2 ≤ b.2) l) :
    List.Pairwise (fun a b => a.2 ≤ b.2) (insertByCount p l) := by
  induction l with
  | nil => simp [insertByCount]
  | cons q rest ih =>
    rcases List.pairwise_cons.mp h with ⟨hq, hrest⟩
    by_cases hlt : p.2 < q.2
    · simp only [insertByCount, if_pos hlt]
      exact List.Pairwise.cons
        (fun x hx => by
          rcases List.mem_cons.mp hx with rfl | hx2
          · exact le_of_lt hlt
          · exact le_trans (le_of_lt hlt) (hq x hx2)) h
    · simp only [insertByCount, if_neg hlt]
      exact List.Pairwise.cons
        (fun x hx => by
          rcases (mem_insertByCount p x rest).mp hx with rfl | hx2
          · exact le_of_not_lt hlt
          · exact hq x hx2) (ih hrest)

theorem pairwise_sortByCount (l : List (String × Int)) :
    List.Pairwise (fun a b => a.2 ≤ b.2) (sortByCount l) := by
  induction l with
  | nil => simp [sortByCount]
  | cons p rest ih =>
    simp only [sortByCount]
    exact pairwise_insertByCount p _ ih

/-! ### Reflective-variant lemmas -/

theorem lookup_foldl_reflectStep (fields : List (String × Int)) (key : String)
    (h : ∀ p ∈ fields, p.1 = key → p.2 = 0) (c : GoMap Int) :
    lookup (fields.foldl reflectStep c) key = lookup c key := by
  induction fields generalizing c with
  | nil => rfl
  | cons p rest ih =>
    simp only [List.foldl_cons]
    rw [ih (fun q hq => h q (List.mem_cons_of_mem _ hq)) _]
    obtain ⟨k0, v0⟩ := p
    by_cases hz : v0 ≠ 0
    · have hk : ¬(key = k0) := by
        intro hk
        exact hz (h (k0, v0) (List.mem_cons_self _ _) hk.symm)
      show lookup (if v0 ≠ 0 then mergeStep c (k0, v0) else c) key = lookup c key
      rw [if_pos hz, lookup_mergeStep, if_neg hk]
    · show lookup (if v0 ≠ 0 then mergeStep c (k0, v0) else c) key = lookup c key
      rw [if_neg hz]

theorem lookup_aggregateReflect_foldl (metas : List Counts) (key : String)
    (h : ∀ m ∈ metas, ∀ p ∈ countsFields m, p.1 = key → p.2 = 0)
    (init : GoMap Int) :
    lookup (metas.foldl (fun c m => updateCountsReflect m c) init) key
      = lookup init key := by
  induction metas generalizing init with
  | nil => rfl
  | cons m rest ih =>
    simp only [List.foldl_cons]
    rw [ih (fun q hq => h q (List.mem_cons_of_mem _ hq)) _]
    exact lookup_foldl_reflectStep _ key (h m (List.mem_cons_self _ _)) init

/-! ### Pipeline lemmas -/

theorem processWorkspaces_foldl (fetch : String → Except String (GoMap Int))
    (workspaces : List Workspace) (l0 : List (String × GoMap Int)) (c0 : GoMap Int) :
    workspaces.foldl
      (fun acc ws =>
        match fetch ws.name with
        | Except.error _ => acc
        | Except.ok meta => (acc.1 ++ [(ws.name, meta)], updateCounts meta acc.2))
      (l0, c0)
    = (l0 ++ workspaces.filterMap (fun ws =>
          match fetch ws.name with
          | Except.ok meta => some (ws.name, meta)
          | Except.error _ => none),
       (workspaces.filterMap (fun ws =>
          match fetch ws.name with
          | Except.ok meta => some meta
          | Except.error _ => none)).foldl
         (fun c m => updateCounts m c) c0) := by
  induction workspaces generalizing l0 c0 with
  | nil => simp
  | cons ws rest ih =>
    cases hf : fetch ws.name with
    | error e =>
      simp only [List.foldl_cons, List.filterMap_cons, hf]
      exact ih l0 c0
    | ok meta =>
      simp only [List.foldl_cons, List.filterMap_cons, hf]
      rw [ih]
      simp [List.append_assoc]

theorem processWorkspacesV1_foldl (fetch : String → Except String Counts)
    (workspaces : List Workspace) (l0 : List (String × Counts)) (c0 : GoMap Int) :
    workspaces.foldl
      (fun acc ws =>
        match fetch ws.name with
        | Except.error _ => acc
        | Except.ok meta => (acc.1 ++ [(ws.name, meta)], updateCountsReflect meta acc.2))
      (l0, c0)
    = (l0 ++ workspaces.filterMap (fun ws =>
          match fetch ws.name with
          | Except.ok meta => some (ws.name, meta)
          | Except.error _ => none),
       (workspaces.filterMap (fun ws =>
          match fetch ws.name with
          | Except.ok meta => some meta
          | Except.error _ => none)).foldl
         (fun c m => updateCountsReflect m c) c0) := by
  induction workspaces generalizing l0 c0 with
  | nil => simp
  | cons ws rest ih =>
    cases hf : fetch ws.name with
    | error e =>
      simp only [List.foldl_cons, List.filterMap_cons, hf]
      exact ih l0 c0
    | ok meta =>
      simp only [List.foldl_cons, List.filterMap_cons, hf]
      rw [ih]
      simp [List.append_assoc]

/-! ### Claim theorems -/

/-- C1: for the workspace list `[{name:"a"},{name:"b"}]` with counts
`{"plugins":2}` for `a` and `{"plugins":3,"routes":1}` for `b`, the
program's aggregate map equals `{"plugins":5,"routes":1}` and the synthetic
`Workspaces` row of the totals table reads `2`. -/
theorem aggregate_example_ab :
    (processWorkspaces fetchAB wsAB).2 = [("plugins", 5), ("routes", 1)] ∧
    lookup (processWorkspaces fetchAB wsAB).2 "plugins" = some 5 ∧
    lookup (processWorkspaces fetchAB wsAB).2 "routes" = some 1 ∧
    (totalsRows (processWorkspaces fetchAB wsAB).2
        (processWorkspaces fetchAB wsAB).1.length).head? = some ("Workspaces", 2) := by
  decide

/-- C2 (counterexample): in the fixed-struct variant, with workspaces `a`
and `b` where the metadata fetch for `b` fails, only `a`'s row is rendered,
yet the printed `Workspaces` row reads `2` (the length of the listed
workspace slice), not the `1` rendered row the claim requires. -/
theorem workspaces_row_v1_counts_failed :
    (processWorkspacesV1 fetchV1BFails wsAB).1.length = 1 ∧
    mainV1Totals fetchV1BFails wsAB = [("Plugins", 2), ("Workspaces", 2)] ∧
    ("Workspaces", (1 : Int)) ∉ mainV1Totals fetchV1BFails wsAB := by
  decide

/-- C2 (amended): in both variants a workspace whose metadata fetch fails is
excluded from the per-workspace table and from the aggregate; the map-based
variant's `Workspaces` row equals the number of per-workspace rows actually
rendered, while the fixed-struct variant's `Workspaces` row equals the
number of listed workspaces, failed fetches included.  In the concrete
scenario (`b` fails) the map-based variant renders only `a`'s row, the
aggregate is `{"plugins":2}`, and `Workspaces` reads `1`. -/
theorem failed_workspaces_excluded (fetch : String → Except String (GoMap Int))
    (fetchV1 : String → Except String Counts) (ws : List Workspace) :
    (processWorkspaces fetch ws).1 = ws.filterMap (fun w =>
        match fetch w.name with
        | Except.ok meta => some (w.name, meta)
        | Except.error _ => none) ∧
    (processWorkspaces fetch ws).2 = aggregate (ws.filterMap (fun w =>
        match fetch w.name with
        | Except.ok meta => some meta
        | Except.error _ => none)) ∧
    (totalsRows (processWorkspaces fetch ws).2 (processWorkspaces fetch ws).1.length).head?
      = some ("Workspaces", ((processWorkspaces fetch ws).1.length : Int)) ∧
    (processWorkspacesV1 fetchV1 ws).1 = ws.filterMap (fun w =>
        match fetchV1 w.name with
        | Except.ok meta => some (w.name, meta)
        | Except.error _ => none) ∧
    (processWorkspacesV1 fetchV1 ws).2 = aggregateReflect (ws.filterMap (fun w =>
        match fetchV1 w.name with
        | Except.ok meta => some meta
        | Except.error _ => none)) ∧
    (mainV1Totals fetchV1 ws).getLast? = some ("Workspaces", (ws.length : Int)) ∧
    (processWorkspaces fetchBFails wsAB).1 = [("a", [("plugins", 2)])] ∧
    (processWorkspaces fetchBFails wsAB).2 = [("plugins", 2)] ∧
    (totalsRows (processWorkspaces fetchBFails wsAB).2
        (processWorkspaces fetchBFails wsAB).1.length).head? = some ("Workspaces", 1) := by
  refine ⟨?_, ?_, ?_, ?_, ?_, ?_, by decide, by decide, by decide⟩
  · unfold processWorkspaces
    rw [processWorkspaces_foldl fetch ws [] []]
    simp
  · unfold processWorkspaces aggregate
    rw [processWorkspaces_foldl fetch ws [] []]
  · simp [totalsRows]
  · unfold processWorkspacesV1
    rw [processWorkspacesV1_foldl fetchV1 ws [] []]
    simp
  · unfold processWorkspacesV1 aggregateReflect
    rw [processWorkspacesV1_foldl fetchV1 ws [] []]
  · simp [mainV1Totals, totalsRowsV1, List.getLast?_concat]

/-- C3: merging is order-independent: folding any permutation of the same
per-workspace count maps (each with unique keys, as Go maps have) into the
initially empty aggregate yields the same final map, key by key. -/
theorem aggregate_perm_invariant (l1 l2 : List (GoMap Int))
    (h : ∀ m ∈ l1, (m.map Prod.fst).Nodup) (hp : l1.Perm l2) (key : String) :
    lookup (aggregate l1) key = lookup (aggregate l2) key := by
  have h2 : ∀ m ∈ l2, (m.map Prod.fst).Nodup := fun m hm => h m (hp.mem_iff.mpr hm)
  unfold aggregate
  rw [lookup_foldl_updateCounts l1 [] key h, lookup_foldl_updateCounts l2 [] key h2]
  exact (hp.map _).foldl_eq' (fun x _ y _ z => combine_right_comm z x y) _

/-- Witness for C3 at the spec's two workspace count maps, swapped. -/
theorem aggregate_perm_invariant_witness :
    lookup (aggregate [[("plugins", 2)], [("plugins", 3), ("routes", 1)]]) "plugins"
      = lookup (aggregate [[("plugins", 3), ("routes", 1)], [("plugins", 2)]]) "plugins" :=
  aggregate_perm_invariant _ _ (by decide) (List.Perm.swap _ _ _) "plugins"

/-- C4: for a source map with unique keys, merging adds each source value to
the previous value in the accumulator (0 when absent), and keys not present
in the source keep their previous value. -/
theorem updateCounts_per_key (into metaCounts : GoMap Int) (k : String)
    (h : (metaCounts.map Prod.fst).Nodup) :
    (∀ v, lookup metaCounts k = some v →
        lookup (updateCounts metaCounts into) k
          = some ((lookup into k).getD 0 + v)) ∧
    (lookup metaCounts k = none →
        lookup (updateCounts metaCounts into) k = lookup into k) := by
  constructor
  · intro v hv
    rw [lookup_updateCounts _ _ _ h, hv]
    rfl
  · intro hv
    rw [lookup_updateCounts _ _ _ h, hv]
    rfl

/-- Witness for C4: a key present in both maps is summed, a key only in the
accumulator is untouched. -/
theorem updateCounts_per_key_witness :
    lookup (updateCounts [("plugins", 3), ("routes", 1)]
        [("plugins", 2), ("targets", 7)]) "plugins"
      = some ((lookup [("plugins", 2), ("targets", 7)] "plugins").getD 0 + 3) ∧
    lookup (updateCounts [("plugins", 3), ("routes", 1)]
        [("plugins", 2), ("targets", 7)]) "targets"
      = lookup [("plugins", 2), ("targets", 7)] "targets" :=
  ⟨(updateCounts_per_key _ _ "plugins" (by decide)).1 3 (by decide),
   (updateCounts_per_key _ _ "targets" (by decide)).2 (by decide)⟩

/-- C5: the resolved admin base URL is the `--kong-addr` flag when
non-empty, else `KONG_ADMIN_ADDR` when non-empty, else the literal default
`http://localhost:8001`. -/
theorem resolveKongAddr_precedence (flagValue envValue : String) :
    (flagValue ≠ "" → resolveKongAddr flagValue envValue = flagValue) ∧
    (flagValue = "" → envValue ≠ "" → resolveKongAddr flagValue envValue = envValue) ∧
    (flagValue = "" → envValue = "" →
        resolveKongAddr flagValue envValue = "http://localhost:8001") := by
  refine ⟨fun h => ?_, fun h1 h2 => ?_, fun h1 h2 => ?_⟩
  · simp [resolveKongAddr, h]
  · simp [resolveKongAddr, h1, h2]
  · simp [resolveKongAddr, h1, h2]

/-- Witness for C5 at all three precedence levels. -/
theorem resolveKongAddr_precedence_witness :
    resolveKongAddr "http://flagged:8001" "http://fromenv:8001" = "http://flagged:8001" ∧
    resolveKongAddr "" "http://fromenv:8001" = "http://fromenv:8001" ∧
    resolveKongAddr "" "" = "http://localhost:8001" :=
  ⟨(resolveKongAddr_precedence _ _).1 (by decide),
   (resolveKongAddr_precedence _ _).2.1 rfl (by decide),
   (resolveKongAddr_precedence _ _).2.2 rfl rfl⟩

/-- C6: a `--headers` value that splits on `:` into exactly two parts yields
exactly that header with key and value trimmed, in both variants; a value
that does not split into exactly two parts is silently ignored and
contributes no header. -/
theorem headerFlag_parsing :
    (∀ s k v, goSplit s ':' = [k, v] →
        getMetadataHeaders s = [(goTrim k, goTrim v)] ∧
        getHeaders s "" = [(goTrim k, goTrim v)]) ∧
    (∀ s, (goSplit s ':').length ≠ 2 →
        getMetadataHeaders s = [] ∧ getHeaders s "" = []) := by
  constructor
  · intro s k v hsplit
    have hs : s ≠ "" := by
      intro h
      subst h
      rw [show goSplit "" ':' = [""] from by decide] at hsplit
      exact absurd hsplit (by simp)
    constructor
    · simp [getMetadataHeaders, hs, hsplit, mapSet_nil]
    · simp [getHeaders, hs, hsplit, mapSet_nil]
  · intro s hlen
    by_cases hs : s = ""
    · subst hs
      exact ⟨by decide, by decide⟩
    · constructor
      · simp [getMetadataHeaders, hs, hlen]
      · simp [getHeaders, hs, hlen]

/-- Witness for C6: the spec's header flag, a whitespace-padded variant,
and a malformed flag. -/
theorem headerFlag_parsing_witness :
    getMetadataHeaders "x-admin-token:secret" = [("x-admin-token", "secret")] ∧
    getMetadataHeaders " x-admin-token : secret " = [("x-admin-token", "secret")] ∧
    getMetadataHeaders "a:b:c" = [] ∧
    getHeaders "a:b:c" "" = [] :=
  ⟨((headerFlag_parsing.1 "x-admin-token:secret" "x-admin-token" "secret"
      (by decide)).1).trans (by decide),
   ((headerFlag_parsing.1 " x-admin-token : secret " " x-admin-token " " secret "
      (by decide)).1).trans (by decide),
   (headerFlag_parsing.2 "a:b:c" (by decide)).1,
   (headerFlag_parsing.2 "a:b:c" (by decide)).2⟩

/-- C7: in the reflective variant, a key whose contributions are all
zero-valued fields is entirely absent from the aggregate map (not present
as a zero entry). -/
theorem zero_fields_excluded (metas : List Counts) (key : String)
    (h : ∀ m ∈ metas, ∀ p ∈ countsFields m, p.1 = key → p.2 = 0) :
    lookup (aggregateReflect metas) key = none := by
  unfold aggregateReflect
  rw [lookup_aggregateReflect_foldl metas key h []]
  rfl

/-- Witness for C7: two metadata structs with zero plugins leave no
`Plugins` entry while the nonzero `Targets` fields sum. -/
theorem zero_fields_excluded_witness :
    lookup (aggregateReflect [⟨0, 2, 0, 0, 0⟩, ⟨0, 3, 0, 1, 0⟩]) "Plugins" = none ∧
    lookup (aggregateReflect [⟨0, 2, 0, 0, 0⟩, ⟨0, 3, 0, 1, 0⟩]) "Targets" = some 5 :=
  ⟨zero_fields_excluded _ "Plugins" (by decide), by decide⟩

/-- C8 (counterexample): the totals table of the sorting variant is not
sorted as a whole: its synthetic `Workspaces` row is rendered first (it is
appended before the sorted meta rows), and with three workspaces totalling
one plugin its count `3` exceeds the following row's count `1`. -/
theorem totals_first_row_unordered :
    totalsRows (processWorkspaces fetchThree wsABC).2
        (processWorkspaces fetchThree wsABC).1.length
      = [("Workspaces", 3), ("plugins", 1)] ∧
    ¬ List.Pairwise (fun a b : String × Int => a.2 ≤ b.2)
        (totalsRows (processWorkspaces fetchThree wsABC).2
          (processWorkspaces fetchThree wsABC).1.length) := by
  constructor
  · decide
  · decide

/-- C8 (amended): in the sorting variant the meta-field rows of the totals
table — every row after the synthetic `Workspaces` row, which is rendered
first — appear in non-decreasing order of their counts. -/
theorem totals_meta_rows_sorted (counts : GoMap Int) (workspaceCount : Nat) :
    List.Pairwise (fun a b => a.2 ≤ b.2) ((totalsRows counts workspaceCount).tail) := by
  simp only [totalsRows, List.tail_cons]
  exact pairwise_sortByCount counts

/-- C9: if the workspace list fetch or decode fails, the program prints the
error and terminates: its output is the single error line, with no
per-workspace table and no totals table. -/
theorem workspace_list_failure_fatal (e : String)
    (fetch : String → Except String (GoMap Int)) (metaFlag : String) :
    runMain (Except.error e) fetch metaFlag
      = [OutputItem.errorLine ("Error getting workspaces: " ++ e)] ∧
    (∀ rows, OutputItem.workspaceTable rows ∉ runMain (Except.error e) fetch metaFlag) ∧
    (∀ rows, OutputItem.totalsTable rows ∉ runMain (Except.error e) fetch metaFlag) := by
  refine ⟨rfl, fun rows => ?_, fun rows => ?_⟩
  · simp [runMain]
  · simp [runMain]

/-- C10: in the variant that reads `X_ADMIN_TOKEN`, a non-empty environment
token always ends up as the `x-admin-token` header value, overwriting any
value the `--headers` flag put there. -/
theorem env_token_overrides (headersFlag token : String) (h : token ≠ "") :
    lookup (getHeaders headersFlag token) "x-admin-token" = some token := by
  unfold getHeaders
  rw [if_pos h]
  exact lookup_mapSet_self _ _ _

/-- Witness for C10: the flag sets `x-admin-token:secret`, the environment
token wins. -/
theorem env_token_overrides_witness :
    lookup (getHeaders "x-admin-token:secret" "envtoken") "x-admin-token"
      = some "envtoken" :=
  env_token_overrides "x-admin-token:secret" "envtoken" (by decide)

end KongCounts
